import Mathlib

/-!
Shallow embedding of the HT16K33 LED-matrix driver (coordinate codec,
shadow-state device driver, and I2C bus simulator) together with proofs
of the specification's testable properties.

Machine integers (`u8`, `u16`) are modelled as `Nat`; wherever overflow or
truncation matters the source's masking is made explicit (`&&& 255`,
`&&& 65535`, `% 2^w`).  Fallible code (Rust `Result`) is modelled with
`Except`; Rust panics (out-of-bounds indexing, shift overflow) are
modelled with `Option`, `none` standing for a panic.
-/

namespace Ht16k33

/-! ## Constants (src/lib.rs) -/

def ROWS_SIZE : Nat := 16

def COMMONS_SIZE : Nat := 8

def DATA_ADDRESS : Nat := 0b00000000

def DIMMING_SET : Nat := 0b11100000

def DISPLAY_SET : Nat := 0b10000000

def SYSTEM_SET : Nat := 0b00100000

/-! ## Register-control state values (src/lib.rs) -/

inductive Oscillator where
  | On
  | Off
deriving DecidableEq

def Oscillator.value : Oscillator → Nat
  | .On => 0b00000001
  | .Off => 0b00000000

inductive Display where
  | On
  | Off
deriving DecidableEq

def Display.value : Display → Nat
  | .On => 0b00000001
  | .Off => 0b00000000

inductive Blink where
  | Off
  | HalfHz
  | OneHz
  | TwoHz
deriving DecidableEq

def Blink.value : Blink → Nat
  | .Off => 0b00000000
  | .HalfHz => 0b00000110
  | .OneHz => 0b00000100
  | .TwoHz => 0b00000010

inductive Dimming where
  | Brightness (value : Nat)
  | MinBrightness
  | MaxBrightness
deriving DecidableEq

def Dimming.value : Dimming → Nat
  | .Brightness v => v
  | .MinBrightness => 0b00000000
  | .MaxBrightness => 0b00001111

/-- Error type of src/lib.rs (`Error::OutOfRange(String)`). -/
inductive Error where
  | OutOfRange (msg : String)
deriving DecidableEq

/-- `Dimming::from_u8` of src/lib.rs: reject values above `MaxBrightness`. -/
def Dimming.from_u8 (value : Nat) : Except Error Dimming :=
  if Dimming.MaxBrightness.value < value then
    .error (.OutOfRange (("Dimming value [" ++ toString value) ++
      ("] is greater than max brightness [" ++ (toString Dimming.MaxBrightness.value ++ "]"))))
  else
    .ok (.Brightness value)

/-! ## LedLocation (src/lib.rs): raw validated `(row, common)` pair -/

structure LedLocation where
  row : Nat
  common : Nat
deriving DecidableEq

/-- `LedLocation::new` of src/lib.rs. -/
def LedLocation.new (row common : Nat) : Except Error LedLocation :=
  if ROWS_SIZE ≤ row then
    .error (.OutOfRange (("Row value [" ++ toString row) ++
      ("] is greater than rows size [" ++ (toString ROWS_SIZE ++ "]"))))
  else if COMMONS_SIZE ≤ common then
    .error (.OutOfRange (("Common value [" ++ toString common) ++
      ("] is greater than commons size [" ++ (toString COMMONS_SIZE ++ "]"))))
  else
    .ok ⟨row, common⟩

/-- Row-addressed layout, register address: `update_display_buffer` indexes
the display buffer by `location.row` (src/lib.rs line 420). -/
def LedLocation.resolveRowAddr (l : LedLocation) : Nat := l.row

/-- Row-addressed layout, bit selector: `update_display_buffer` masks with
`1 << location.common` (src/lib.rs line 420). -/
def LedLocation.resolveRowMask (l : LedLocation) : Nat := 1 <<< l.common

/-! ## Structured validation error (src/errors.rs) -/

def fieldRow : String := "row"

def fieldCommon : String := "common"

def fieldDimming : String := "Dimming"

inductive ValidationError where
  | ValueTooLarge (name : String) (value limit : Nat) (inclusive : Bool)
deriving DecidableEq

namespace Types

/-! ## The revision under src/src/types/ -/

/-- Modelled from the spec: the `DisplayData` bitflags type that
src/src/types/led_location.rs is written against (`ROW_0 = 1 << 0` …
`ROW_15 = 1 << 15` over a 16-bit word) is missing from src/ — the
checked-in display_data.rs is a different revision with 8-bit `COMMON_*`
flags and no `ROW_*` constants.  Per the spec's row range `[0, 16)` and the
one-bit-per-row packing into a two-byte register word, the bits type is a
16-bit word and `ROW_8` is the mask `1 << 8`. -/
def DisplayData_ROW_8 : Nat := 1 <<< 8

/-- Modelled from the spec: union of all `DisplayData` flag bits (the mask
applied by `from_bits_truncate`); the sixteen one-hot row flags cover the
whole 16-bit word. -/
def DisplayData_ALL : Nat := 65535

/-- Union of all `DisplayDataAddress` flag bits
(src/src/types/display_data_address.rs: `ROW_0 = 0` … `ROW_15 = 15`),
the mask applied by `from_bits_truncate`. -/
def DisplayDataAddress_ALL : Nat := 15

/-- `LedLocation` of src/src/types/led_location.rs: `row` is the one-hot
16-bit `DisplayData` mask, `common` the `DisplayDataAddress` bits. -/
structure LedLocation where
  row : Nat
  common : Nat
deriving DecidableEq

/-- `LedLocation::new` of src/src/types/led_location.rs. -/
def LedLocation.new (row common : Nat) : Except ValidationError LedLocation :=
  if ROWS_SIZE ≤ row then
    .error (.ValueTooLarge fieldRow row ROWS_SIZE false)
  else if COMMONS_SIZE ≤ common then
    .error (.ValueTooLarge fieldCommon common COMMONS_SIZE false)
  else
    .ok ⟨(1 <<< row) &&& DisplayData_ALL, common &&& DisplayDataAddress_ALL⟩

/-- Panic-aware left shift on the 16-bit `DisplayData` word: Rust's
`1u16 << n` panics (debug) when the shift amount is not below the bit
width.  `none` models the panic. -/
def shlChecked16 (n : Nat) : Option Nat :=
  if n < 16 then some (1 <<< n) else none

/-- Panic-aware `LedLocation::new`: identical to `LedLocation.new` except
that the `1 << row` shift is performed by `shlChecked16`, so a shift
amount outside the `DisplayData` bit width would surface as `none`. -/
def LedLocation.newChecked (row common : Nat) :
    Option (Except ValidationError LedLocation) :=
  if ROWS_SIZE ≤ row then
    some (.error (.ValueTooLarge fieldRow row ROWS_SIZE false))
  else if COMMONS_SIZE ≤ common then
    some (.error (.ValueTooLarge fieldCommon common COMMONS_SIZE false))
  else
    match shlChecked16 row with
    | some m => some (.ok ⟨m &&& DisplayData_ALL, common &&& DisplayDataAddress_ALL⟩)
    | none => none

/-- `LedLocation::common_as_index_on_chip` of src/src/types/led_location.rs:
`chip_index = common.bits() * 2` plus `1` when `row >= DisplayData::ROW_8`. -/
def LedLocation.common_as_index_on_chip (l : LedLocation) : Nat :=
  l.common * 2 + (if DisplayData_ROW_8 ≤ l.row then 1 else 0)

/-- Modelled from the spec: the device-visible byte of the 16-bit row word
at the offset chosen by `common_as_index_on_chip` (even offset = low byte,
odd offset = high byte). -/
def LedLocation.rowByteOnChip (l : LedLocation) : Nat :=
  if DisplayData_ROW_8 ≤ l.row then l.row >>> 8 else l.row &&& 255

/-- `Dimming` of src/src/types/dimming.rs (bitflags over `u8`). -/
structure Dimming where
  bits : Nat
deriving DecidableEq

/-- Union of all `Dimming` flag bits (`COMMAND = 0b1110_0000` together with
the brightness values `0..=15`), the mask applied by `from_bits_truncate`. -/
def Dimming_ALL : Nat := 0b11101111

def Dimming_BRIGHTNESS_MAX : Nat := 15

/-- `Dimming::from_u8` of src/src/types/dimming.rs. -/
def Dimming.from_u8 (value : Nat) : Except ValidationError Dimming :=
  if Dimming_BRIGHTNESS_MAX < value then
    .error (.ValueTooLarge fieldDimming value Dimming_BRIGHTNESS_MAX true)
  else
    .ok ⟨value &&& Dimming_ALL⟩

end Types

/-! ## Inverse coordinate mappings (spec §4.1/§8: the round-trip law) -/

/-- Fuel-driven base-2 logarithm (structural recursion so that it reduces
under `decide`); `maskIndex` below instantiates the fuel. -/
def log2b : Nat → Nat → Nat
  | 0, _ => 0
  | b + 1, n => if n ≤ 1 then 0 else log2b b (n / 2) + 1

/-- Index of the single set bit of a one-hot bit selector
(base-2 logarithm). -/
def maskIndex (m : Nat) : Nat := log2b m m

/-- Inverse of the row-addressed layout: the register address is the row,
the bit selector's index is the column. -/
def rowLayoutInv (addr mask : Nat) : Nat × Nat := (addr, maskIndex mask)

/-- Inverse of the common-addressed packed layout
(`device_offset = common*2 + (0 if row < 8 else 1)`, `bit = row % 8`). -/
def commonLayoutInv (offset bit : Nat) : Nat × Nat :=
  (bit + 8 * (offset % 2), offset / 2)

/-! ## Characterizations of the constructors (helper lemmas) -/

theorem Types.LedLocation.new_eq_ok (row common : Nat) (hr : row < 16) (hc : common < 8) :
    Types.LedLocation.new row common = .ok ⟨1 <<< row, common⟩ := by
  have hmask : ∀ r : Nat, r < 16 → (1 <<< r) &&& Types.DisplayData_ALL = 1 <<< r := by decide
  have hcm : ∀ c : Nat, c < 8 → c &&& Types.DisplayDataAddress_ALL = c := by decide
  unfold Types.LedLocation.new
  rw [if_neg (by simp only [ROWS_SIZE]; omega), if_neg (by simp only [COMMONS_SIZE]; omega),
    hmask row hr, hcm common hc]

theorem LedLocation.new_ok (row common : Nat) (hr : row < 16) (hc : common < 8) :
    LedLocation.new row common = .ok ⟨row, common⟩ := by
  unfold LedLocation.new
  rw [if_neg (by simp only [ROWS_SIZE]; omega), if_neg (by simp only [COMMONS_SIZE]; omega)]

theorem LedLocation.new_ok_bounds (row common : Nat) (loc : LedLocation)
    (h : LedLocation.new row common = .ok loc) :
    loc.row = row ∧ loc.common = common ∧ loc.row < 16 ∧ loc.common < 8 := by
  unfold LedLocation.new at h
  split at h
  · exact absurd h (by simp)
  · split at h
    · exact absurd h (by simp)
    · simp only [Except.ok.injEq] at h
      subst h
      refine ⟨rfl, rfl, ?_, ?_⟩ <;> simp only [ROWS_SIZE, COMMONS_SIZE] at * <;> omega

/-- C1 core, settled by exhaustive evaluation over the 128 valid coordinates. -/
theorem coordinate_roundtrip_core :
    ∀ r : Nat, r < 16 → ∀ c : Nat, c < 8 →
      rowLayoutInv (LedLocation.resolveRowAddr ⟨r, c⟩) (LedLocation.resolveRowMask ⟨r, c⟩) = (r, c) ∧
      commonLayoutInv (Types.LedLocation.common_as_index_on_chip ⟨1 <<< r, c⟩)
        (maskIndex (Types.LedLocation.rowByteOnChip ⟨1 <<< r, c⟩)) = (r, c) ∧
      Types.LedLocation.common_as_index_on_chip ⟨1 <<< r, c⟩ =
        c * 2 + (if r < 8 then 0 else 1) := by decide

/-- C1: for every valid coordinate (row in `[0,16)`, common in `[0,8)`),
resolving to the (register address, bit selector) pair and applying the
inverse mapping returns the original coordinate, for the row-addressed
layout (`address = row`, `mask = 1 << common`, as in `update_display_buffer`)
and for the common-addressed packed layout (`device_offset = common*2 +
(0 if row < 8 else 1)`, `bit = row % 8`, as computed by
`common_as_index_on_chip`); the maps are therefore injective on the valid
domain. -/
theorem claim1_coordinate_roundtrip (row common : Nat) (hr : row < 16) (hc : common < 8)
    (loc : Types.LedLocation) (hloc : Types.LedLocation.new row common = .ok loc) :
    rowLayoutInv (LedLocation.resolveRowAddr ⟨row, common⟩)
        (LedLocation.resolveRowMask ⟨row, common⟩) = (row, common) ∧
      commonLayoutInv loc.common_as_index_on_chip (maskIndex loc.rowByteOnChip) = (row, common) ∧
      loc.common_as_index_on_chip = common * 2 + (if row < 8 then 0 else 1) := by
  rw [Types.LedLocation.new_eq_ok row common hr hc] at hloc
  have hl : loc = ⟨1 <<< row, common⟩ := by
    cases hloc
    rfl
  subst hl
  exact coordinate_roundtrip_core row hr common hc

theorem claim1_coordinate_roundtrip_witness :
    (9 < 16 ∧ 3 < 8) ∧
      (rowLayoutInv (LedLocation.resolveRowAddr ⟨9, 3⟩)
          (LedLocation.resolveRowMask ⟨9, 3⟩) = (9, 3) ∧
        commonLayoutInv (Types.LedLocation.common_as_index_on_chip ⟨1 <<< 9, 3⟩)
          (maskIndex (Types.LedLocation.rowByteOnChip ⟨1 <<< 9, 3⟩)) = (9, 3) ∧
        Types.LedLocation.common_as_index_on_chip ⟨1 <<< 9, 3⟩ =
          3 * 2 + (if 9 < 8 then 0 else 1)) :=
  ⟨by decide,
    claim1_coordinate_roundtrip 9 3 (by decide) (by decide) ⟨1 <<< 9, 3⟩
      (by rfl)⟩

/-! ## Error-branch characterizations (helper lemmas) -/

theorem Types.LedLocation.new_err_row (row common : Nat) (h : 16 ≤ row) :
    Types.LedLocation.new row common = .error (.ValueTooLarge fieldRow row 16 false) := by
  unfold Types.LedLocation.new
  rw [if_pos (by simp only [ROWS_SIZE]; omega)]
  rfl

theorem Types.LedLocation.new_err_common (row common : Nat) (h1 : row < 16) (h2 : 8 ≤ common) :
    Types.LedLocation.new row common = .error (.ValueTooLarge fieldCommon common 8 false) := by
  unfold Types.LedLocation.new
  rw [if_neg (by simp only [ROWS_SIZE]; omega), if_pos (by simp only [COMMONS_SIZE]; omega)]
  rfl

/-- C7: `LedLocation::new(row, common)` fails with a `ValueTooLarge` error
exactly when `row ≥ 16` or `common ≥ 8`, the error carries the failing
field's exclusive limit (16 for row, 8 for common, `inclusive = false`),
in-range pairs yield `Ok`, and every constructed `LedLocation` holds
in-range values (a one-hot row mask `1 << r` with `r < 16` and a common
below 8 in the typed revision; raw `row < 16`, `common < 8` in the lib.rs
revision). -/
theorem claim7_new_validation (row common : Nat) (hrow : row < 256) (hcommon : common < 256) :
    ((16 ≤ row ∨ 8 ≤ common) ↔
        ∃ n v l i, Types.LedLocation.new row common = .error (.ValueTooLarge n v l i)) ∧
      (16 ≤ row → Types.LedLocation.new row common =
        .error (.ValueTooLarge fieldRow row 16 false)) ∧
      (row < 16 → 8 ≤ common → Types.LedLocation.new row common =
        .error (.ValueTooLarge fieldCommon common 8 false)) ∧
      (row < 16 → common < 8 → Types.LedLocation.new row common = .ok ⟨1 <<< row, common⟩) ∧
      (∀ loc, Types.LedLocation.new row common = .ok loc →
        (∃ r, r < 16 ∧ loc.row = 1 <<< r) ∧ loc.common < 8) ∧
      ((16 ≤ row ∨ 8 ≤ common) ↔ ∃ m, LedLocation.new row common = .error (.OutOfRange m)) ∧
      (∀ loc : LedLocation, LedLocation.new row common = .ok loc →
        loc.row < 16 ∧ loc.common < 8) := by
  by_cases h1 : 16 ≤ row
  · refine ⟨⟨fun _ => ⟨fieldRow, row, 16, false, Types.LedLocation.new_err_row row common h1⟩,
      fun _ => Or.inl h1⟩,
      fun _ => Types.LedLocation.new_err_row row common h1,
      fun h => absurd h1 (by omega),
      fun h => absurd h1 (by omega),
      fun loc hloc => ?_, ⟨fun _ => ?_, fun _ => Or.inl h1⟩, fun loc hloc => ?_⟩
    · rw [Types.LedLocation.new_err_row row common h1] at hloc
      exact absurd hloc (by simp)
    · refine ⟨("Row value [" ++ toString row) ++
        ("] is greater than rows size [" ++ (toString ROWS_SIZE ++ "]")), ?_⟩
      unfold LedLocation.new
      rw [if_pos (by simp only [ROWS_SIZE]; omega)]
    · unfold LedLocation.new at hloc
      rw [if_pos (by simp only [ROWS_SIZE]; omega)] at hloc
      exact absurd hloc (by simp)
  · by_cases h2 : 8 ≤ common
    · refine ⟨⟨fun _ => ⟨fieldCommon, common, 8, false,
        Types.LedLocation.new_err_common row common (by omega) h2⟩, fun _ => Or.inr h2⟩,
        fun h => absurd h h1,
        fun _ _ => Types.LedLocation.new_err_common row common (by omega) h2,
        fun _ h => absurd h2 (by omega),
        fun loc hloc => ?_, ⟨fun _ => ?_, fun _ => Or.inr h2⟩, fun loc hloc => ?_⟩
      · rw [Types.LedLocation.new_err_common row common (by omega) h2] at hloc
        exact absurd hloc (by simp)
      · refine ⟨("Common value [" ++ toString common) ++
          ("] is greater than commons size [" ++ (toString COMMONS_SIZE ++ "]")), ?_⟩
        unfold LedLocation.new
        rw [if_neg (by simp only [ROWS_SIZE]; omega),
          if_pos (by simp only [COMMONS_SIZE]; omega)]
      · unfold LedLocation.new at hloc
        rw [if_neg (by simp only [ROWS_SIZE]; omega),
          if_pos (by simp only [COMMONS_SIZE]; omega)] at hloc
        exact absurd hloc (by simp)
    · have hok := Types.LedLocation.new_eq_ok row common (by omega) (by omega)
      have hok2 := LedLocation.new_ok row common (by omega) (by omega)
      refine ⟨⟨fun h => absurd h (by omega), fun ⟨n, v, l, i, h⟩ => ?_⟩,
        fun h => absurd h h1, fun _ h => absurd h h2,
        fun _ _ => hok, fun loc hloc => ?_,
        ⟨fun h => absurd h (by omega), fun ⟨m, h⟩ => ?_⟩, fun loc hloc => ?_⟩
      · rw [hok] at h
        exact absurd h (by simp)
      · rw [hok] at hloc
        cases hloc
        exact ⟨⟨row, by omega, rfl⟩, by show common < 8; omega⟩
      · rw [hok2] at h
        exact absurd h (by simp)
      · rw [hok2] at hloc
        cases hloc
        exact ⟨by show row < 16; omega, by show common < 8; omega⟩

theorem claim7_new_validation_witness :
    (20 < 256 ∧ 9 < 256) ∧
      Types.LedLocation.new 20 9 = .error (.ValueTooLarge fieldRow 20 16 false) ∧
      Types.LedLocation.new 3 9 = .error (.ValueTooLarge fieldCommon 9 8 false) ∧
      Types.LedLocation.new 3 5 = .ok ⟨1 <<< 3, 5⟩ :=
  ⟨by decide,
    (claim7_new_validation 20 9 (by decide) (by decide)).2.1 (by decide),
    (claim7_new_validation 3 9 (by decide) (by decide)).2.2.1 (by decide) (by decide),
    (claim7_new_validation 3 5 (by decide) (by decide)).2.2.2.1 (by decide) (by decide)⟩

/-- C8: `Dimming::from_u8(v)` returns `Ok` with bit pattern exactly `v`
iff `v ≤ 15`; for `v ≥ 16` it returns a `ValueTooLarge` error with limit
15 marked inclusive (typed revision); the lib.rs revision accepts and
rejects the same values. -/
theorem claim8_dimming_validation (v : Nat) (hv : v < 256) :
    ((Types.Dimming.from_u8 v = .ok ⟨v⟩) ↔ v ≤ 15) ∧
      (16 ≤ v → Types.Dimming.from_u8 v =
        .error (.ValueTooLarge fieldDimming v 15 true)) ∧
      ((Dimming.from_u8 v = .ok (.Brightness v)) ↔ v ≤ 15) ∧
      (16 ≤ v → ∃ m, Dimming.from_u8 v = .error (.OutOfRange m)) := by
  have hand : ∀ w : Nat, w < 16 → w &&& Types.Dimming_ALL = w := by decide
  by_cases h : v ≤ 15
  · have ht : Types.Dimming.from_u8 v = .ok ⟨v⟩ := by
      unfold Types.Dimming.from_u8
      rw [if_neg (by simp only [Types.Dimming_BRIGHTNESS_MAX]; omega), hand v (by omega)]
    have hl : Dimming.from_u8 v = .ok (.Brightness v) := by
      unfold Dimming.from_u8
      rw [if_neg (by simp only [Dimming.value]; omega)]
    exact ⟨⟨fun _ => h, fun _ => ht⟩, fun hc => absurd hc (by omega),
      ⟨fun _ => h, fun _ => hl⟩, fun hc => absurd hc (by omega)⟩
  · have ht : Types.Dimming.from_u8 v = .error (.ValueTooLarge fieldDimming v 15 true) := by
      unfold Types.Dimming.from_u8
      rw [if_pos (by simp only [Types.Dimming_BRIGHTNESS_MAX]; omega)]
      rfl
    have hl : Dimming.from_u8 v = .error (.OutOfRange (("Dimming value [" ++ toString v) ++
        ("] is greater than max brightness [" ++ (toString Dimming.MaxBrightness.value ++ "]")))) := by
      unfold Dimming.from_u8
      rw [if_pos (by simp only [Dimming.value]; omega)]
    refine ⟨⟨fun hc => ?_, fun hc => absurd hc h⟩, fun _ => ht,
      ⟨fun hc => ?_, fun hc => absurd hc h⟩, fun _ => ⟨_, hl⟩⟩
    · rw [ht] at hc
      exact absurd hc (by simp)
    · rw [hl] at hc
      exact absurd hc (by simp)

theorem claim8_dimming_validation_witness :
    (14 < 256 ∧ 16 < 256) ∧
      Types.Dimming.from_u8 14 = .ok ⟨14⟩ ∧
      Types.Dimming.from_u8 16 = .error (.ValueTooLarge fieldDimming 16 15 true) :=
  ⟨by decide,
    ((claim8_dimming_validation 14 (by decide)).1).mpr (by decide),
    (claim8_dimming_validation 16 (by decide)).2.1 (by decide)⟩

/-! ## Panic-aware display-buffer update (src/lib.rs `update_display_buffer`) -/

/-- Panic-aware form of `update_display_buffer`'s buffer mutation: Rust's
`self.buffer[location.row]` panics when the index is out of bounds and
`1u8 << location.common` panics when the shift amount is not below 8;
`none` models either panic.  In-bounds behaviour: set (`|=`) or clear
(`&= !(1 << common)`, i.e. mask with the 8-bit complement) the selected
bit. -/
def updateBufferChecked (buffer : List Nat) (l : LedLocation) (enabled : Bool) :
    Option (List Nat) :=
  if l.row < buffer.length ∧ l.common < 8 then
    some (if enabled then
        buffer.set l.row (buffer.getD l.row 0 ||| (1 <<< l.common))
      else
        buffer.set l.row (buffer.getD l.row 0 &&& ((1 <<< l.common) ^^^ 255)))
  else none

/-- C9: no public constructor or operation panics: `LedLocation::new`
returns a `Result` for every `u8` input pair — in particular for rows 8–15,
whose one-hot mask `1 << row` stays inside the 16-bit `DisplayData` word
because the row was validated below 16 first — and the buffer mutation of
`update_display_buffer` is in-bounds for every constructed location. -/
theorem claim9_no_panics :
    (∀ row common : Nat,
        Types.LedLocation.newChecked row common = some (Types.LedLocation.new row common)) ∧
      (∀ (row common : Nat) (buf : List Nat) (enabled : Bool) (loc : LedLocation),
        buf.length = 16 → LedLocation.new row common = .ok loc →
        (updateBufferChecked buf loc enabled).isSome = true) := by
  constructor
  · intro row common
    unfold Types.LedLocation.newChecked Types.LedLocation.new
    by_cases h1 : ROWS_SIZE ≤ row
    · rw [if_pos h1, if_pos h1]
    · by_cases h2 : COMMONS_SIZE ≤ common
      · rw [if_neg h1, if_neg h1, if_pos h2, if_pos h2]
      · rw [if_neg h1, if_neg h1, if_neg h2, if_neg h2]
        have hs : Types.shlChecked16 row = some (1 <<< row) := by
          unfold Types.shlChecked16
          rw [if_pos (by simp only [ROWS_SIZE] at h1; omega)]
        rw [hs]
  · intro row common buf enabled loc hlen hloc
    obtain ⟨-, -, hr, hc⟩ := LedLocation.new_ok_bounds row common loc hloc
    unfold updateBufferChecked
    rw [if_pos ⟨by omega, hc⟩]
    rfl

theorem claim9_no_panics_witness :
    Types.LedLocation.newChecked 12 3 = some (Types.LedLocation.new 12 3) ∧
      (updateBufferChecked (List.replicate 16 0) ⟨12, 3⟩ true).isSome = true :=
  ⟨claim9_no_panics.1 12 3,
    claim9_no_panics.2 12 3 (List.replicate 16 0) true ⟨12, 3⟩ (by decide) (by rfl)⟩

/-! ## Transport abstraction (the embedded-hal `Write`/`WriteRead` traits)

A transport is a state type `σ` with a `write` and a `write_read`
operation.  Mirroring Rust's `&mut self` methods, each operation returns
the successor transport state together with `none` (success) or
`some e` (the transport error `e` propagated by `?`); the driver state it
is embedded in persists either way. -/

structure I2c (σ ε : Type) where
  write : σ → Nat → List Nat → σ × Option ε
  write_read : σ → Nat → List Nat → Nat → (σ × List Nat) × Option ε

/-- Driver state of `HT16K33` (src/lib.rs): owned transport, device
address, shadow display buffer (16 `u8` words) and the shadow copies of
the write-only registers. -/
structure HT16K33 (σ : Type) where
  i2c : σ
  address : Nat
  buffer : List Nat
  oscillator_state : Oscillator
  display_state : Display
  blink_state : Blink
  dimming_state : Dimming

/-- `HT16K33::new`: power-on defaults. -/
def HT16K33.new {σ : Type} (i2c : σ) (address : Nat) : HT16K33 σ :=
  ⟨i2c, address, List.replicate ROWS_SIZE 0, .Off, .Off, .Off, .MaxBrightness⟩

/-- `HT16K33::set_oscillator`: update the shadow field, then emit one
single-byte write `SYSTEM_SET | oscillator.value()`. -/
def HT16K33.set_oscillator {σ ε : Type} (T : I2c σ ε) (h : HT16K33 σ) (o : Oscillator) :
    HT16K33 σ × Option ε :=
  let h1 := { h with oscillator_state := o }
  let r := T.write h1.i2c h1.address [SYSTEM_SET ||| h1.oscillator_state.value]
  ({ h1 with i2c := r.1 }, r.2)

/-- `HT16K33::set_display`: update the shadow fields, then emit one
single-byte write `DISPLAY_SET | display.value() | blink.value()`. -/
def HT16K33.set_display {σ ε : Type} (T : I2c σ ε) (h : HT16K33 σ) (d : Display) (b : Blink) :
    HT16K33 σ × Option ε :=
  let h1 := { h with display_state := d, blink_state := b }
  let r := T.write h1.i2c h1.address
    [DISPLAY_SET ||| h1.display_state.value ||| h1.blink_state.value]
  ({ h1 with i2c := r.1 }, r.2)

/-- `HT16K33::set_dimming`: update the shadow field, then emit one
single-byte write `DIMMING_SET | dimming.value()`. -/
def HT16K33.set_dimming {σ ε : Type} (T : I2c σ ε) (h : HT16K33 σ) (d : Dimming) :
    HT16K33 σ × Option ε :=
  let h1 := { h with dimming_state := d }
  let r := T.write h1.i2c h1.address [DIMMING_SET ||| h1.dimming_state.value]
  ({ h1 with i2c := r.1 }, r.2)

/-- `HT16K33::update_display_buffer`: local-only; set (`|= 1 << common`)
or clear (`&= !(1 << common)`, the 8-bit complement) the addressed bit of
the shadow buffer word at index `row`. -/
def HT16K33.update_display_buffer {σ : Type} (h : HT16K33 σ) (l : LedLocation)
    (enabled : Bool) : HT16K33 σ :=
  if enabled then
    { h with buffer := h.buffer.set l.row (h.buffer.getD l.row 0 ||| (1 <<< l.common)) }
  else
    { h with buffer := h.buffer.set l.row (h.buffer.getD l.row 0 &&& ((1 <<< l.common) ^^^ 255)) }

/-- `HT16K33::clear_display_buffer`: zero every shadow buffer word. -/
def HT16K33.clear_display_buffer {σ : Type} (h : HT16K33 σ) : HT16K33 σ :=
  { h with buffer := h.buffer.map fun _ => 0 }

/-- `HT16K33::set_led`: `update_display_buffer`, then write only the one
affected register byte (`[DATA_ADDRESS | row, buffer[row]]`). -/
def HT16K33.set_led {σ ε : Type} (T : I2c σ ε) (h : HT16K33 σ) (l : LedLocation)
    (enabled : Bool) : HT16K33 σ × Option ε :=
  let h1 := h.update_display_buffer l enabled
  let r := T.write h1.i2c h1.address [DATA_ADDRESS ||| l.row, h1.buffer.getD l.row 0]
  ({ h1 with i2c := r.1 }, r.2)

/-- `HT16K33::write_display_buffer`: one write of the base RAM address
followed by all sixteen shadow buffer bytes. -/
def HT16K33.write_display_buffer {σ ε : Type} (T : I2c σ ε) (h : HT16K33 σ) :
    HT16K33 σ × Option ε :=
  let r := T.write h.i2c h.address (DATA_ADDRESS :: h.buffer)
  ({ h with i2c := r.1 }, r.2)

/-- `HT16K33::read_display_buffer`: one `write_read` of the base RAM
address, overwriting the whole shadow buffer with the returned bytes. -/
def HT16K33.read_display_buffer {σ ε : Type} (T : I2c σ ε) (h : HT16K33 σ) :
    HT16K33 σ × Option ε :=
  let r := T.write_read h.i2c h.address [DATA_ADDRESS] h.buffer.length
  ({ h with i2c := r.1.1, buffer := r.1.2 }, r.2)

/-- `HT16K33::initialize` (renamed: `initialize` is a Lean keyword):
oscillator on, display off/blink off, dimming max, clear the local
buffer, write the full buffer; each `?` aborts on the first transport
error. -/
def HT16K33.initDevice {σ ε : Type} (T : I2c σ ε) (h : HT16K33 σ) : HT16K33 σ × Option ε :=
  match HT16K33.set_oscillator T h .On with
  | (h1, some e) => (h1, some e)
  | (h1, none) =>
    match HT16K33.set_display T h1 .Off .Off with
    | (h2, some e) => (h2, some e)
    | (h2, none) =>
      match HT16K33.set_dimming T h2 .MaxBrightness with
      | (h3, some e) => (h3, some e)
      | (h3, none) => HT16K33.write_display_buffer T (HT16K33.clear_display_buffer h3)

/-- Transport instantiation that records every write payload (a bus that
always succeeds); used to state which bytes an operation emits. -/
def traceI2c : I2c (List (List Nat)) Empty where
  write := fun s _ b => (s ++ [b], none)
  write_read := fun s _ _ n => ((s, List.replicate n 0), none)

/-- Transport instantiation with an error oracle `f`: the `n`-th write
call (0-based) fails with error code `f n` when that is `some`; the state
counts write attempts and records every attempted payload. -/
def faultyI2c (f : Nat → Option Nat) : I2c (Nat × List (List Nat)) Nat where
  write := fun s _ b => ((s.1 + 1, s.2 ++ [b]), f s.1)
  write_read := fun s _ _ n => ((s, List.replicate n 0), none)

namespace I2cMock

/-- `DisplayDataAddress::ROW_0.bits()` (src/src/types/display_data_address.rs). -/
def ROW_0_bits : Nat := 0

/-- Register-storing loop of `I2cMock::write` (src/src/i2c_mock.rs):
store each byte at `data_offset`, then auto-increment with wraparound
modulo the register array length.  `none` models the Rust panic on an
out-of-bounds first offset. -/
def writeAux (regs : List Nat) (off : Nat) (data : List Nat) : Option (List Nat) :=
  match data with
  | [] => some regs
  | v :: rest =>
    if off < regs.length then writeAux (regs.set off v) ((off + 1) % regs.length) rest
    else none

/-- `I2cMock::write` (src/src/i2c_mock.rs): length-1 writes are
command-only and discarded; otherwise `bytes[0] ^ ROW_0.bits()` is the
starting offset and the remaining bytes are stored with auto-increment
and wraparound.  `none` models the panics (`bytes[0]` on an empty slice,
out-of-bounds first index). -/
def write (regs : List Nat) (address : Nat) (bytes : List Nat) : Option (List Nat) :=
  if bytes.length = 1 then some regs
  else
    match bytes with
    | [] => none
    | b0 :: rest => writeAux regs (b0 ^^^ ROW_0_bits) rest

/-- Read loop of `I2cMock::write_read`: fill each output slot from
`regs[data_offset]`, auto-incrementing with wraparound. -/
def readAux (regs : List Nat) (off : Nat) : Nat → Option (List Nat)
  | 0 => some []
  | n + 1 =>
    if off < regs.length then
      match readAux regs ((off + 1) % regs.length) n with
      | some rest => some (regs.getD off 0 :: rest)
      | none => none
    else none

/-- `I2cMock::write_read` (src/src/i2c_mock.rs): `bytes[0] ^ ROW_0.bits()`
is the starting offset; the whole output buffer (length `outLen`) is
filled with auto-increment and wraparound. -/
def write_read (regs : List Nat) (address : Nat) (bytes : List Nat) (outLen : Nat) :
    Option (List Nat) :=
  match bytes with
  | [] => none
  | b0 :: _ => readAux regs (b0 ^^^ ROW_0_bits) outLen

end I2cMock

/-- The bus simulator as a transport instantiation for the driver.  The
mock itself never returns a transport error; its only failure mode is the
panic (`none`) on an out-of-range first offset, surfaced here as a `Unit`
error — the driver only ever sends first bytes below 16, so that branch
is unreachable in every theorem below. -/
def mockI2c : I2c (List Nat) Unit where
  write := fun regs a bytes =>
    match I2cMock.write regs a bytes with
    | some r => (r, none)
    | none => (regs, some ())
  write_read := fun regs a bytes n =>
    match I2cMock.write_read regs a bytes n with
    | some out => ((regs, out), none)
    | none => ((regs, List.replicate n 0), some ())

/-- Modelled from the spec (§4.3): the Bus Simulator state machine as the
spec words it — a persistent `current_offset` cursor into a fixed-size
register array.  Used to compare the source's cursor-free `I2cMock`
against the spec's description. -/
structure SpecMock where
  current_offset : Nat
  registers : List Nat

/-- Modelled from the spec: store each payload byte at `current_offset`,
incrementing with wraparound modulo the register array length after every
byte. -/
def SpecMock.store : SpecMock → List Nat → SpecMock
  | s, [] => s
  | s, v :: rest =>
    SpecMock.store
      ⟨(s.current_offset + 1) % s.registers.length, s.registers.set s.current_offset v⟩ rest

/-- Modelled from the spec: the `Write(bytes)` transition — a length-1
write only sets `current_offset`; otherwise `bytes[0]` sets the offset
and the rest are stored via `SpecMock.store`. -/
def SpecMock.writeOp (s : SpecMock) (bytes : List Nat) : SpecMock :=
  match bytes with
  | [] => s
  | [b0] => ⟨b0, s.registers⟩
  | b0 :: rest => SpecMock.store ⟨b0, s.registers⟩ rest

/-! ## List helper lemmas -/

theorem getD_set_self (l : List Nat) (i v : Nat) (h : i < l.length) :
    (l.set i v).getD i 0 = v := by
  induction l generalizing i with
  | nil => simp at h
  | cons a t ih =>
    cases i with
    | zero => rfl
    | succ j => exact ih j (by simpa using h)

theorem getD_set_ne (l : List Nat) (i j v : Nat) (h : i ≠ j) :
    (l.set i v).getD j 0 = l.getD j 0 := by
  induction l generalizing i j with
  | nil => simp
  | cons a t ih =>
    cases i with
    | zero =>
      cases j with
      | zero => exact absurd rfl h
      | succ j2 => rfl
    | succ i2 =>
      cases j with
      | zero => rfl
      | succ j2 => exact ih i2 j2 (by omega)

theorem set_getD_self (l : List Nat) (i : Nat) (h : i < l.length) :
    l.set i (l.getD i 0) = l := by
  induction l generalizing i with
  | nil => rfl
  | cons a t ih =>
    cases i with
    | zero => rfl
    | succ j => simpa using ih j (by simpa using h)

theorem getD_mem (l : List Nat) (i : Nat) (h : i < l.length) : l.getD i 0 ∈ l := by
  induction l generalizing i with
  | nil => simp at h
  | cons a t ih =>
    cases i with
    | zero => simp [List.getD]
    | succ j =>
      have := ih j (by simpa using h)
      simp [List.getD] at this ⊢
      exact Or.inr this

theorem list_eq_of_getD (l1 l2 : List Nat) (hlen : l1.length = l2.length)
    (h : ∀ j, j < l1.length → l1.getD j 0 = l2.getD j 0) : l1 = l2 := by
  induction l1 generalizing l2 with
  | nil =>
    cases l2 with
    | nil => rfl
    | cons b t2 => simp at hlen
  | cons a t1 ih =>
    cases l2 with
    | nil => simp at hlen
    | cons b t2 =>
      have hh := h 0 (by simp)
      simp [List.getD] at hh
      have ht : t1 = t2 := by
        refine ih t2 (by simpa using hlen) fun j hj => ?_
        have := h (j + 1) (by simpa using Nat.succ_lt_succ hj)
        simpa [List.getD] using this
      rw [hh, ht]

theorem map_const_zero (l : List Nat) : (l.map fun _ => 0) = List.replicate l.length 0 := by
  induction l with
  | nil => rfl
  | cons a t ih => simp [ih, List.replicate]

/-! ## Bus-simulator characterizations -/

theorem writeAux_spec (data : List Nat) (regs : List Nat) (off : Nat)
    (hlen : regs.length = 16) (hoff : off < 16) (hdata : data.length ≤ 16) :
    ∃ r, I2cMock.writeAux regs off data = some r ∧ r.length = 16 ∧
      (∀ j, j < data.length → r.getD ((off + j) % 16) 0 = data.getD j 0) ∧
      (∀ p, p < 16 → (∀ j, j < data.length → (off + j) % 16 ≠ p) →
        r.getD p 0 = regs.getD p 0) := by
  induction data generalizing regs off with
  | nil => exact ⟨regs, rfl, hlen, by simp, fun p _ _ => rfl⟩
  | cons v rest ih =>
    have hrest : rest.length ≤ 15 := by simpa using hdata
    obtain ⟨r, hr, hrlen, hset, hkeep⟩ := ih (regs.set off v) ((off + 1) % 16)
      (by simpa using hlen) (by omega) (by omega)
    have hstep : I2cMock.writeAux regs off (v :: rest) = some r := by
      unfold I2cMock.writeAux
      rw [if_pos (by omega), hlen]
      exact hr
    refine ⟨r, hstep, hrlen, fun j hj => ?_, fun p hp hne => ?_⟩
    · cases j with
      | zero =>
        have hoffmod : (off + 0) % 16 = off := by omega
        rw [hoffmod]
        have huntouched : ∀ j2, j2 < rest.length → ((off + 1) % 16 + j2) % 16 ≠ off := by
          intro j2 hj2
          rw [Nat.mod_add_mod]
          omega
        rw [hkeep off hoff huntouched, getD_set_self regs off v (by omega)]
        rfl
      | succ j2 =>
        have hj2 : j2 < rest.length := by simpa using hj
        have := hset j2 hj2
        rw [Nat.mod_add_mod] at this
        have harith : (off + 1 + j2) % 16 = (off + (j2 + 1)) % 16 := by
          have : off + 1 + j2 = off + (j2 + 1) := by omega
          rw [this]
        rw [harith] at this
        rw [this]
        rfl
    · have hne0 : off ≠ p := by
        have := hne 0 (by simp)
        omega
      have hrestne : ∀ j2, j2 < rest.length → ((off + 1) % 16 + j2) % 16 ≠ p := by
        intro j2 hj2
        rw [Nat.mod_add_mod]
        have := hne (j2 + 1) (by simpa using Nat.succ_lt_succ hj2)
        have harith : (off + 1 + j2) = (off + (j2 + 1)) := by omega
        rw [harith]
        exact this
      rw [hkeep p hp hrestne, getD_set_ne regs off p v hne0]

theorem readAux_spec (n : Nat) (regs : List Nat) (off : Nat)
    (hlen : regs.length = 16) (hoff : off < 16) :
    ∃ out, I2cMock.readAux regs off n = some out ∧ out.length = n ∧
      ∀ j, j < n → out.getD j 0 = regs.getD ((off + j) % 16) 0 := by
  induction n generalizing off with
  | zero => exact ⟨[], rfl, rfl, by omega⟩
  | succ m ih =>
    obtain ⟨out, hout, holen, hoget⟩ := ih ((off + 1) % 16) (by omega)
    refine ⟨regs.getD off 0 :: out, ?_, by simp [holen], fun j hj => ?_⟩
    · unfold I2cMock.readAux
      rw [if_pos (by omega), hlen, hout]
    · cases j with
      | zero =>
        have hoffmod : (off + 0) % 16 = off := by omega
        rw [hoffmod]
        rfl
      | succ j2 =>
        have hj2 : j2 < m := by omega
        have := hoget j2 hj2
        rw [Nat.mod_add_mod] at this
        have harith : (off + 1 + j2) % 16 = (off + (j2 + 1)) % 16 := by
          have : off + 1 + j2 = off + (j2 + 1) := by omega
          rw [this]
        rw [harith] at this
        simpa [List.getD] using this

/-- The source's cursor-free mock write agrees, register-for-register,
with the spec's cursor-carrying `Write(bytes)` transition. -/
theorem writeAux_store (data : List Nat) (s : SpecMock)
    (hlen : s.registers.length = 16) (hoff : s.current_offset < 16) :
    I2cMock.writeAux s.registers s.current_offset data = some (SpecMock.store s data).registers := by
  induction data generalizing s with
  | nil => rfl
  | cons v rest ih =>
    unfold I2cMock.writeAux SpecMock.store
    rw [if_pos (by omega)]
    exact ih ⟨(s.current_offset + 1) % s.registers.length, s.registers.set s.current_offset v⟩
      (by simpa using hlen)
      (by show (s.current_offset + 1) % s.registers.length < 16; rw [hlen]; omega)

/-- C4: the bus simulator's `Write(bytes)` transition — a length-1 write
mutates no register (it is address-only; the source discards it, which
coincides with the spec's cursor-setting description on every register),
a longer write stores each payload byte at consecutive indices starting
at `bytes[0]` with wraparound modulo 16 after every byte, registers
outside the written window are untouched, the result agrees with the
spec's `current_offset` state machine, and a write at address 15 with 3
payload bytes lands at indices 15, 0, 1. -/
theorem claim4_mock_write_transition :
    (∀ (regs : List Nat) (a b0 : Nat), I2cMock.write regs a [b0] = some regs) ∧
      (∀ (regs : List Nat) (a b0 : Nat) (data : List Nat),
        regs.length = 16 → b0 < 16 → data ≠ [] → data.length ≤ 16 →
        ∃ r, I2cMock.write regs a (b0 :: data) = some r ∧ r.length = 16 ∧
          (∀ j, j < data.length → r.getD ((b0 + j) % 16) 0 = data.getD j 0) ∧
          (∀ p, p < 16 → (∀ j, j < data.length → (b0 + j) % 16 ≠ p) →
            r.getD p 0 = regs.getD p 0)) ∧
      (∀ (regs : List Nat) (a b0 : Nat) (data : List Nat) (off : Nat),
        regs.length = 16 → b0 < 16 →
        I2cMock.write regs a (b0 :: data) =
          some ((SpecMock.writeOp ⟨off, regs⟩ (b0 :: data)).registers)) ∧
      I2cMock.write (List.replicate 16 5) 0 [15, 170, 187, 204] =
        some (187 :: 204 :: (List.replicate 13 5 ++ [170])) := by
  refine ⟨fun regs a b0 => rfl, fun regs a b0 data hlen hb0 hne hdata => ?_, ?_, by decide⟩
  · obtain ⟨r, hr, hrlen, hset, hkeep⟩ := writeAux_spec data regs b0 hlen hb0 hdata
    refine ⟨r, ?_, hrlen, hset, hkeep⟩
    unfold I2cMock.write
    rw [if_neg (by cases data with | nil => exact absurd rfl hne | cons c t => simp)]
    simpa [I2cMock.ROW_0_bits] using hr
  · intro regs a b0 data off hlen hb0
    cases data with
    | nil => rfl
    | cons v rest =>
      unfold I2cMock.write SpecMock.writeOp
      rw [if_neg (by simp)]
      simpa [I2cMock.ROW_0_bits] using
        writeAux_store (v :: rest) ⟨b0, regs⟩ hlen hb0

theorem claim4_mock_write_transition_witness :
    I2cMock.write (List.replicate 16 0) 0 [9] = some (List.replicate 16 0) ∧
      (∃ r, I2cMock.write (List.replicate 16 0) 0 [3, 7, 8] = some r ∧ r.length = 16 ∧
        (∀ j, j < 2 → r.getD ((3 + j) % 16) 0 = [7, 8].getD j 0) ∧
        (∀ p, p < 16 → (∀ j, j < 2 → (3 + j) % 16 ≠ p) →
          r.getD p 0 = (List.replicate 16 0).getD p 0)) :=
  ⟨claim4_mock_write_transition.1 (List.replicate 16 0) 0 9,
    claim4_mock_write_transition.2.1 (List.replicate 16 0) 0 3 [7, 8]
      (by decide) (by decide) (by decide) (by decide)⟩

/-- C10: the bus simulator ignores the device address argument — for any
two addresses, any byte sequence, any output length and any starting
register state, `write` and `write_read` behave identically. -/
theorem claim10_mock_address_independent :
    ∀ (a1 a2 : Nat) (bytes regs : List Nat) (outLen : Nat),
      I2cMock.write regs a1 bytes = I2cMock.write regs a2 bytes ∧
        I2cMock.write_read regs a1 bytes outLen = I2cMock.write_read regs a2 bytes outLen ∧
        mockI2c.write regs a1 bytes = mockI2c.write regs a2 bytes ∧
        mockI2c.write_read regs a1 bytes outLen = mockI2c.write_read regs a2 bytes outLen :=
  fun _ _ _ _ _ => ⟨rfl, rfl, rfl, rfl⟩

/-- C3: a `write_display_buffer` followed by `read_display_buffer`
through the bus simulator restores the shadow buffer exactly: the write
lands the sixteen shadow bytes at registers 0–15 (so the mock's register
file equals the shadow buffer), the read decodes them back in the same
byte order, and neither transaction fails. -/
theorem claim3_buffer_roundtrip (h : HT16K33 (List Nat))
    (hb : h.buffer.length = 16) (hr : h.i2c.length = 16) :
    ((HT16K33.read_display_buffer mockI2c
        ((HT16K33.write_display_buffer mockI2c h).1)).1).buffer = h.buffer ∧
      (HT16K33.write_display_buffer mockI2c h).1.i2c = h.buffer ∧
      (HT16K33.write_display_buffer mockI2c h).2 = none ∧
      (HT16K33.read_display_buffer mockI2c
        ((HT16K33.write_display_buffer mockI2c h).1)).2 = none := by
  have hwrite : I2cMock.write h.i2c h.address (DATA_ADDRESS :: h.buffer) = some h.buffer := by
    obtain ⟨r, hrw, hrlen, hset, -⟩ := writeAux_spec h.buffer h.i2c 0 hr (by omega) (by omega)
    have hreq : r = h.buffer := by
      refine list_eq_of_getD r h.buffer (by omega) fun j hj => ?_
      have := hset j (by omega)
      have hmod : (0 + j) % 16 = j := by omega
      rwa [hmod] at this
    unfold I2cMock.write
    rw [if_neg (by simp [hb])]
    simpa [DATA_ADDRESS, I2cMock.ROW_0_bits, hreq] using hrw
  have hread : I2cMock.write_read h.buffer h.address [DATA_ADDRESS] h.buffer.length =
      some h.buffer := by
    obtain ⟨out, hro, holen, hoget⟩ := readAux_spec h.buffer.length h.buffer 0 hb (by omega)
    have houteq : out = h.buffer := by
      refine list_eq_of_getD out h.buffer (by omega) fun j hj => ?_
      rw [holen] at hj
      have := hoget j hj
      have hmod : (0 + j) % 16 = j := by omega
      rwa [hmod] at this
    unfold I2cMock.write_read
    simpa [DATA_ADDRESS, I2cMock.ROW_0_bits, houteq] using hro
  have hw : HT16K33.write_display_buffer mockI2c h = ({ h with i2c := h.buffer }, none) := by
    unfold HT16K33.write_display_buffer
    simp [mockI2c, hwrite]
  rw [hw]
  have hread16 : I2cMock.write_read h.buffer h.address [DATA_ADDRESS] 16 = some h.buffer := by
    rw [← hb]
    exact hread
  refine ⟨?_, rfl, rfl, ?_⟩ <;>
    · unfold HT16K33.read_display_buffer
      simp [mockI2c, hb, hread16]

theorem claim3_buffer_roundtrip_witness :
    ((HT16K33.read_display_buffer mockI2c
        ((HT16K33.write_display_buffer mockI2c
          ⟨List.replicate 16 7, 0, [3, 1, 4, 1, 5, 9, 2, 6, 5, 3, 5, 8, 9, 7, 9, 3],
            .Off, .Off, .Off, .MaxBrightness⟩).1)).1).buffer =
      [3, 1, 4, 1, 5, 9, 2, 6, 5, 3, 5, 8, 9, 7, 9, 3] :=
  (claim3_buffer_roundtrip
    ⟨List.replicate 16 7, 0, [3, 1, 4, 1, 5, 9, 2, 6, 5, 3, 5, 8, 9, 7, 9, 3],
      .Off, .Off, .Off, .MaxBrightness⟩ (by decide) (by decide)).1

/-! ## Initialization sequence (C2) -/

/-- C2: over a recording transport, `initialize` performs exactly four
writes, in order and byte-exact: oscillator-on `0b0010_0001`,
display-off/blink-off `0b1000_0000`, dimming-max `0b1110_1111`, and the
full all-zero buffer `[DATA_ADDRESS, 0 × 16]` as one write, returning no
error; over a transport whose `k`-th write (k < 4) is the first to fail,
`initialize` returns that error, exactly `k + 1` writes were attempted
(the failing one included, none after it), and the attempted payloads are
the first `k + 1` of the same four. -/
theorem claim2_init_sequence :
    (∀ h : HT16K33 (List (List Nat)), h.buffer.length = 16 →
      (HT16K33.initDevice traceI2c h).2 = none ∧
        (HT16K33.initDevice traceI2c h).1.i2c =
          h.i2c ++ [[0b00100001], [0b10000000], [0b11101111],
            DATA_ADDRESS :: List.replicate 16 0]) ∧
      (∀ (f : Nat → Option Nat) (addr k e : Nat), k < 4 → f k = some e →
        (∀ j, j < k → f j = none) →
        (HT16K33.initDevice (faultyI2c f) (HT16K33.new (0, []) addr)).2 = some e ∧
          (HT16K33.initDevice (faultyI2c f) (HT16K33.new (0, []) addr)).1.i2c.2 =
            List.take (k + 1) [[0b00100001], [0b10000000], [0b11101111],
              DATA_ADDRESS :: List.replicate 16 0] ∧
          (HT16K33.initDevice (faultyI2c f) (HT16K33.new (0, []) addr)).1.i2c.1 = k + 1) := by
  constructor
  · intro h hb
    have hbytes1 : SYSTEM_SET ||| Oscillator.On.value = 0b00100001 := by decide
    have hbytes2 : DISPLAY_SET ||| Display.Off.value ||| Blink.Off.value = 0b10000000 := by decide
    have hbytes3 : DIMMING_SET ||| Dimming.MaxBrightness.value = 0b11101111 := by decide
    unfold HT16K33.initDevice HT16K33.set_oscillator HT16K33.set_display HT16K33.set_dimming
      HT16K33.clear_display_buffer HT16K33.write_display_buffer traceI2c
    simp only [hbytes1, hbytes2, hbytes3, map_const_zero, hb]
    simp [List.append_assoc]
  · intro f addr k e hk hfk hfj
    interval_cases k
    · unfold HT16K33.initDevice HT16K33.set_oscillator faultyI2c HT16K33.new
      simp only [hfk]
      exact ⟨by trivial, by decide, by trivial⟩
    · have h0 := hfj 0 (by omega)
      unfold HT16K33.initDevice HT16K33.set_oscillator HT16K33.set_display faultyI2c HT16K33.new
      simp only [h0, hfk]
      exact ⟨by trivial, by decide, by trivial⟩
    · have h0 := hfj 0 (by omega)
      have h1 := hfj 1 (by omega)
      unfold HT16K33.initDevice HT16K33.set_oscillator HT16K33.set_display HT16K33.set_dimming
        faultyI2c HT16K33.new
      simp only [h0, h1, hfk]
      exact ⟨by trivial, by decide, by trivial⟩
    · have h0 := hfj 0 (by omega)
      have h1 := hfj 1 (by omega)
      have h2 := hfj 2 (by omega)
      unfold HT16K33.initDevice HT16K33.set_oscillator HT16K33.set_display HT16K33.set_dimming
        HT16K33.clear_display_buffer HT16K33.write_display_buffer faultyI2c HT16K33.new
      simp only [h0, h1, h2, hfk]
      exact ⟨by trivial, by decide, by trivial⟩

theorem claim2_init_sequence_witness :
    ((HT16K33.initDevice traceI2c (HT16K33.new [] 0)).2 = none ∧
      (HT16K33.initDevice traceI2c (HT16K33.new [] 0)).1.i2c =
        [] ++ [[0b00100001], [0b10000000], [0b11101111], DATA_ADDRESS :: List.replicate 16 0]) ∧
      (HT16K33.initDevice (faultyI2c fun n => if n = 2 then some 7 else none)
          (HT16K33.new (0, []) 0)).2 = some 7 :=
  ⟨claim2_init_sequence.1 (HT16K33.new [] 0) (by decide),
    (claim2_init_sequence.2 (fun n => if n = 2 then some 7 else none) 0 2 7
      (by decide) (by decide) (by decide)).1⟩

/-! ## Bit arithmetic for the set/clear toggle (C5) -/

theorem or_and_compl8 (x c : Nat) (hx : x < 256) (hc : c < 8)
    (h0 : x &&& (1 <<< c) = 0) :
    (x ||| (1 <<< c)) &&& ((1 <<< c) ^^^ 255) = x := by
  have hxc : x.testBit c = false := by
    have hcongr := congrArg (fun n => n.testBit c) h0
    simpa [Nat.one_shiftLeft, Nat.testBit_two_pow] using hcongr
  apply Nat.eq_of_testBit_eq
  intro i
  rw [Nat.one_shiftLeft]
  have h255 : Nat.testBit 255 i = decide (i < 8) := by
    have h8 : (255 : Nat) = 2 ^ 8 - 1 := by norm_num
    rw [h8, Nat.testBit_two_pow_sub_one]
  simp only [Nat.testBit_and, Nat.testBit_or, Nat.testBit_xor, Nat.testBit_two_pow, h255]
  by_cases hic : c = i
  · subst hic
    simp [hxc, hc]
  · by_cases hi8 : i < 8
    · simp [hic, hi8]
    · have hxi : x.testBit i = false := by
        refine Nat.testBit_lt_two_pow (Nat.lt_of_lt_of_le hx ?_)
        calc (256 : Nat) = 2 ^ 8 := by norm_num
          _ ≤ 2 ^ i := Nat.pow_le_pow_right (by omega) (by omega)
      simp [hic, hi8, hxi]

theorem set_set' (l : List Nat) (i a b : Nat) : (l.set i a).set i b = l.set i b := by
  induction l generalizing i with
  | nil => rfl
  | cons x t ih =>
    cases i with
    | zero => rfl
    | succ j => simp [ih j]

/-- C5 counterexample: with the LED (0,0) already on in the shadow buffer,
`set_led(coord, true)` followed by `set_led(coord, false)` clears the bit
instead of restoring the pre-call buffer, although the coordinate is
constructible. -/
theorem claim5_toggle_counterexample :
    ((HT16K33.set_led traceI2c
          ((HT16K33.set_led traceI2c
            (⟨[], 0, [1, 0, 0, 0, 0, 0, 0, 0, 0, 0, 0, 0, 0, 0, 0, 0],
              .Off, .Off, .Off, .MaxBrightness⟩ : HT16K33 (List (List Nat)))
            ⟨0, 0⟩ true).1)
          ⟨0, 0⟩ false).1).buffer ≠
        [1, 0, 0, 0, 0, 0, 0, 0, 0, 0, 0, 0, 0, 0, 0, 0] ∧
      LedLocation.new 0 0 = .ok ⟨0, 0⟩ := ⟨by decide, by rfl⟩

/-- C5 (amended): `set_led(coord, true)` then `set_led(coord, false)`
restores the shadow buffer exactly whenever the addressed bit was clear in
the pre-call buffer (in general the sequence leaves that bit cleared and
every other bit unchanged, so a pre-set bit is lost). -/
theorem claim5_toggle_amended {σ ε : Type} (T : I2c σ ε) (h : HT16K33 σ) (row common : Nat)
    (hrow : row < 16) (hcommon : common < 8) (hlen : h.buffer.length = 16)
    (hmem : ∀ x ∈ h.buffer, x < 256)
    (hbit : h.buffer.getD row 0 &&& (1 <<< common) = 0) :
    ((HT16K33.set_led T ((HT16K33.set_led T h ⟨row, common⟩ true).1)
        ⟨row, common⟩ false).1).buffer = h.buffer := by
  have hx256 : h.buffer.getD row 0 < 256 := hmem _ (getD_mem h.buffer row (by omega))
  have hb1 : ((HT16K33.set_led T h ⟨row, common⟩ true).1).buffer =
      h.buffer.set row (h.buffer.getD row 0 ||| (1 <<< common)) := by
    simp [HT16K33.set_led, HT16K33.update_display_buffer]
  have hb2 : ((HT16K33.set_led T ((HT16K33.set_led T h ⟨row, common⟩ true).1)
      ⟨row, common⟩ false).1).buffer =
      ((HT16K33.set_led T h ⟨row, common⟩ true).1).buffer.set row
        (((HT16K33.set_led T h ⟨row, common⟩ true).1).buffer.getD row 0 &&&
          ((1 <<< common) ^^^ 255)) := by
    simp [HT16K33.set_led, HT16K33.update_display_buffer]
  rw [hb2, hb1, getD_set_self h.buffer row _ (by omega), set_set',
    or_and_compl8 _ common hx256 hcommon hbit, set_getD_self h.buffer row (by omega)]

theorem claim5_toggle_amended_witness :
    ((HT16K33.set_led traceI2c
        ((HT16K33.set_led traceI2c
          (⟨[], 0, [0, 0, 0, 0, 0, 0, 0, 0, 0, 0, 0, 0, 0, 0, 0, 5],
            .Off, .Off, .Off, .MaxBrightness⟩ : HT16K33 (List (List Nat)))
          ⟨2, 3⟩ true).1)
        ⟨2, 3⟩ false).1).buffer =
      [0, 0, 0, 0, 0, 0, 0, 0, 0, 0, 0, 0, 0, 0, 0, 5] :=
  claim5_toggle_amended traceI2c
    ⟨[], 0, [0, 0, 0, 0, 0, 0, 0, 0, 0, 0, 0, 0, 0, 0, 0, 5], .Off, .Off, .Off, .MaxBrightness⟩
    2 3 (by decide) (by decide) (by decide) (by decide) (by decide)

/-! ## Single-byte register commands (C6) -/

/-- C6 counterexample: the publicly constructible value
`Dimming::Brightness(32)` has state bits that overlap `DIMMING_SET`, and
its command byte collides with the one emitted for `MinBrightness` —
refuting "for every state value expressible through the public API, the
prefix bits and the state bits never overlap". -/
theorem claim6_prefix_overlap_counterexample :
    DIMMING_SET &&& (Dimming.Brightness 32).value ≠ 0 ∧
      DIMMING_SET ||| (Dimming.Brightness 32).value =
        DIMMING_SET ||| Dimming.MinBrightness.value := by decide

/-- C6 (amended): each of `set_oscillator`, `set_display`, `set_dimming`
performs exactly one transport write of exactly one byte
`COMMAND_PREFIX | state_bits`; the prefix and state bits never overlap
for every `Oscillator`, `Display`/`Blink` value and for every `Dimming`
value obtained from the validating constructor `from_u8` or the named
`MinBrightness`/`MaxBrightness` variants (a raw `Dimming::Brightness`
above 31 can overlap the prefix, as the counterexample shows). -/
theorem claim6_single_byte_commands :
    (∀ (h : HT16K33 (List (List Nat))) (o : Oscillator),
        (HT16K33.set_oscillator traceI2c h o).1.i2c = h.i2c ++ [[SYSTEM_SET ||| o.value]] ∧
          (HT16K33.set_oscillator traceI2c h o).2 = none) ∧
      (∀ (h : HT16K33 (List (List Nat))) (d : Display) (b : Blink),
        (HT16K33.set_display traceI2c h d b).1.i2c =
            h.i2c ++ [[DISPLAY_SET ||| d.value ||| b.value]] ∧
          (HT16K33.set_display traceI2c h d b).2 = none) ∧
      (∀ (h : HT16K33 (List (List Nat))) (d : Dimming),
        (HT16K33.set_dimming traceI2c h d).1.i2c = h.i2c ++ [[DIMMING_SET ||| d.value]] ∧
          (HT16K33.set_dimming traceI2c h d).2 = none) ∧
      (∀ o : Oscillator, SYSTEM_SET &&& o.value = 0) ∧
      (∀ (d : Display) (b : Blink), DISPLAY_SET &&& (d.value ||| b.value) = 0) ∧
      (∀ (v : Nat) (d : Dimming), Dimming.from_u8 v = .ok d → DIMMING_SET &&& d.value = 0) ∧
      DIMMING_SET &&& Dimming.MinBrightness.value = 0 ∧
      DIMMING_SET &&& Dimming.MaxBrightness.value = 0 := by
  have hsmall : ∀ w : Nat, w < 16 → DIMMING_SET &&& w = 0 := by decide
  refine ⟨fun h o => ⟨rfl, rfl⟩, fun h d b => ⟨rfl, rfl⟩, fun h d => ⟨rfl, rfl⟩,
    fun o => by cases o <;> decide, fun d b => by cases d <;> cases b <;> decide,
    fun v d hv => ?_, by decide, by decide⟩
  unfold Dimming.from_u8 at hv
  split at hv
  · exact absurd hv (by simp)
  · simp only [Except.ok.injEq] at hv
    subst hv
    exact hsmall v (by simp only [Dimming.value] at *; omega)

theorem claim6_single_byte_commands_witness :
    Dimming.from_u8 5 = .ok (.Brightness 5) ∧
      DIMMING_SET &&& (Dimming.Brightness 5).value = 0 :=
  ⟨by rfl, claim6_single_byte_commands.2.2.2.2.2.1 5 (.Brightness 5) (by rfl)⟩

end Ht16k33
